import Mathlib

/-!
Verification of the Evangelista Monte Carlo engine core
(`src/configuration_manager.py`, `src/monte_carlo_engine.py`).

Python values that appear in configuration trees are embedded as the
inductive type `Val`; mappings (Python `dict`) are insertion-ordered
association lists with unique keys, numbers are embedded as rationals.
-/

/-- Embedding of the Python/YAML values a configuration tree can hold.
`null` is Python `None`; `num` covers ints and floats (as rationals). -/
inductive Val where
  | null : Val
  | bool : Bool → Val
  | num  : ℚ → Val
  | str  : String → Val
  | list : List Val → Val
  | dict : List (String × Val) → Val

/-- Python truthiness (`if value:`) for the embedded values. -/
def Val.truthy : Val → Bool
  | Val.null => false
  | Val.bool b => b
  | Val.num q => if q = 0 then false else true
  | Val.str s => if s = "" then false else true
  | Val.list l => !l.isEmpty
  | Val.dict d => !d.isEmpty

/-- Numeric content of a value; arithmetic in the engine is only ever
applied to numbers, so non-numeric content (a type error in the source)
is mapped to 0. -/
def Val.toRat : Val → ℚ
  | Val.num q => q
  | _ => 0

/-- `d[key]` / `key in d` combined: first (unique) binding of a key in an
association list, mirroring a Python dict lookup. -/
def lookupKey : List (String × Val) → String → Option Val
  | [], _ => Option.none
  | (k1, v1) :: rest, k => if k1 = k then some v1 else lookupKey rest k

/-- `d[key] = value` on a Python dict: replace in place when the key is
present, append otherwise. -/
def setKey : List (String × Val) → String → Val → List (String × Val)
  | [], k, v => [(k, v)]
  | (k1, v1) :: rest, k, v =>
      if k1 = k then (k, v) :: rest else (k1, v1) :: setKey rest k v

/-- `dict.get(key, default)` on an embedded mapping; a non-mapping
receiver is a type error in the source and yields the default here. -/
def dictGet (v : Val) (k : String) (default : Val) : Val :=
  match v with
  | Val.dict d => (lookupKey d k).getD default
  | _ => default

mutual

/-- `ConfigurationManager._merge_configs`: start from a copy of the
template and fold the client's bindings into it, recursing when both
sides hold a mapping at the key and overriding otherwise. -/
def mergeConfigs (template client : List (String × Val)) : List (String × Val) :=
  match client with
  | [] => template
  | (k, v) :: rest => mergeConfigs (setKey template k (mergeOverride template k v)) rest
termination_by sizeOf client
decreasing_by all_goals (simp_wf <;> omega)

/-- The value `_merge_configs` stores for one client binding `(k, v)`:
the recursive merge when `result[k]` exists and both values are dicts,
the client value otherwise. -/
def mergeOverride (result : List (String × Val)) (k : String) (v : Val) : Val :=
  match lookupKey result k, v with
  | some (Val.dict td), Val.dict cd => Val.dict (mergeConfigs td cd)
  | _, _ => v
termination_by sizeOf v
decreasing_by all_goals simp_wf

end

/-- Characters of a string split on `'.'`, mirroring Python
`path.split('.')` (no collapsing: `""` gives `[""]`). -/
def splitDots : List Char → List (List Char)
  | [] => [[]]
  | c :: rest =>
      if c = '.' then [] :: splitDots rest
      else
        match splitDots rest with
        | [] => [[c]]
        | g :: gs => (c :: g) :: gs

/-- `path.split('.')` on a Lean string. -/
def splitPath (s : String) : List String :=
  (splitDots s.toList).map String.mk

/-- A Python exception the walk in `ConfigurationManager.get` can hit:
`value[key]` on a dict missing the key raises `KeyError`; the source
returns the default directly on a non-mapping intermediate, which we
record as the `typeError` outcome (both are caught by `get`). -/
inductive PyErr where
  | keyError : PyErr
  | typeError : PyErr

/-- The loop body of `ConfigurationManager.get`: walk the tree along the
split path, failing on a missing key or a non-mapping intermediate. -/
def walkPath : Val → List String → Except PyErr Val
  | v, [] => Except.ok v
  | Val.dict d, k :: ks =>
      match lookupKey d k with
      | some v => walkPath v ks
      | Option.none => Except.error PyErr.keyError
  | _, _ :: _ => Except.error PyErr.typeError

/-- `ConfigurationManager.get(path, default)`: dot-notation access that
returns `default` on any failure of the walk. -/
def configGet (cfg : Val) (path : String) (default : Val) : Val :=
  match walkPath cfg (splitPath path) with
  | Except.ok v => v
  | Except.error _ => default

/-- `ConfigurationManager.get_distribution_config`: client override
first (`simulation.custom_distributions.<name>`), then the template
default (`default_distributions.<name>`), a `ValueError` when neither
lookup produced a truthy value. -/
def get_distribution_config (cfg : Val) (vname : String) : Except String Val :=
  let custom := configGet cfg (String.append "simulation.custom_distributions." vname) Val.null
  if custom.truthy then Except.ok custom
  else
    let dflt := configGet cfg (String.append "default_distributions." vname) Val.null
    if dflt.truthy then Except.ok dflt
    else Except.error (String.append "No se encontró configuración de distribución para variable: " vname)

/-- Lookup written from the words of the merge/get spec: follow the path
through nested mappings, `none` as soon as a step is missing or a
non-mapping is encountered before the path is exhausted. -/
def specLookup : Val → List String → Option Val
  | v, [] => some v
  | Val.dict d, k :: ks =>
      match lookupKey d k with
      | some v => specLookup v ks
      | Option.none => Option.none
  | _, _ :: _ => Option.none

/-! ## Statistics (`UniversalMonteCarloEngine.get_statistics`) -/

/-- Ascending sort of a series, as pandas sorts before interpolating a
quantile. -/
def sortQ (xs : List ℚ) : List ℚ := List.insertionSort (· ≤ ·) xs

/-- Linear interpolation into a (sorted) series at fractional position
`h`: value `s[⌊h⌋] + (h − ⌊h⌋)·(s[⌊h⌋+1] − s[⌊h⌋])`, clamped to the last
element when `⌊h⌋ + 1` is out of range. -/
def interpAt (s : List ℚ) (h : ℚ) : ℚ :=
  match s[(Int.toNat ⌊h⌋) + 1]? with
  | some nxt =>
      s.getD (Int.toNat ⌊h⌋) 0 + (h - (Int.toNat ⌊h⌋ : ℚ)) * (nxt - s.getD (Int.toNat ⌊h⌋) 0)
  | Option.none => s.getD (Int.toNat ⌊h⌋) 0

/-- `Series.quantile(q)` with the default linear interpolation: position
`q·(n−1)` into the sorted values. -/
def pdQuantile (xs : List ℚ) (q : ℚ) : ℚ :=
  interpAt (sortQ xs) (q * ((sortQ xs).length - 1 : ℚ))

/-- `Series.mean()`: arithmetic mean (0 on the empty series, which the
source never produces for a completed run). -/
def listMean (xs : List ℚ) : ℚ := xs.sum / (xs.length : ℚ)

/-- `Series.min()`. -/
def stat_min : List ℚ → ℚ
  | [] => 0
  | x :: r => r.foldl min x

/-- `Series.max()`. -/
def stat_max : List ℚ → ℚ
  | [] => 0
  | x :: r => r.foldl max x

/-- `Series.median()`, which pandas computes as the linear-interpolation
quantile at 1/2 (middle element for odd length, mean of the two middle
elements for even length). -/
def stat_median (xs : List ℚ) : ℚ := pdQuantile xs (1/2)

/-- `Series.std()` squared: pandas sample variance (ddof = 1). The square
root itself is not rational, so `get_statistics` receives the square-root
function as an abstract parameter. -/
def sampleVar (xs : List ℚ) : ℚ :=
  (xs.map (fun x => (x - listMean xs) ^ 2)).sum / ((xs.length : ℚ) - 1)

/-- The fixed statistical summary of `get_statistics`. -/
structure Stats where
  mean : ℚ
  median : ℚ
  std : ℚ
  min : ℚ
  max : ℚ
  p10 : ℚ
  p25 : ℚ
  p50 : ℚ
  p75 : ℚ
  p90 : ℚ
  p95 : ℚ
  p99 : ℚ
  prob_loss : ℚ
  var_95 : ℚ
  cvar_95 : ℚ

/-- `UniversalMonteCarloEngine.get_statistics` on the outcome vector of a
completed run. `sqrt` abstracts the irrational square root used only for
the `std` field. -/
def get_statistics (sqrt : ℚ → ℚ) (outcome : List ℚ) : Stats :=
  { mean := listMean outcome
    median := stat_median outcome
    std := sqrt (sampleVar outcome)
    min := stat_min outcome
    max := stat_max outcome
    p10 := pdQuantile outcome (10/100)
    p25 := pdQuantile outcome (25/100)
    p50 := pdQuantile outcome (50/100)
    p75 := pdQuantile outcome (75/100)
    p90 := pdQuantile outcome (90/100)
    p95 := pdQuantile outcome (95/100)
    p99 := pdQuantile outcome (99/100)
    prob_loss := ((outcome.filter (fun x => x < 0)).length : ℚ) / (outcome.length : ℚ)
    var_95 := pdQuantile outcome (5/100)
    cvar_95 := listMean (outcome.filter (fun x => x ≤ pdQuantile outcome (5/100))) }

/-! ## Distribution parameter resolution
(`_calculate_distribution_params`, `_get_fallback_params`) -/

/-- String content of a value (distribution `type` tags are strings). -/
def Val.toStr : Val → String
  | Val.str s => s
  | _ => ""

/-- `_calculate_distribution_params`: empirical parameters from the
non-null historical observations of a variable. -/
def calculate_distribution_params (sqrt : ℚ → ℚ) (values : List ℚ) (distType : String) :
    Except String (List (String × ℚ)) :=
  if distType = "normal" then
    Except.ok [("mean", listMean values), ("std", sqrt (sampleVar values))]
  else if distType = "triangular" then
    Except.ok [("min", stat_min values), ("mode", stat_median values), ("max", stat_max values)]
  else if distType = "uniform" then
    Except.ok [("min", stat_min values), ("max", stat_max values)]
  else
    Except.error (String.append "Distribución no soportada: " distType)

/-- The anchor of the fallback heuristic:
`config.get('current_prices', {}).get(variable_name, 100)`. -/
def fallbackCurrentValue (cfg : Val) (vname : String) : ℚ :=
  (dictGet (configGet cfg "current_prices" (Val.dict [])) vname (Val.num 100)).toRat

/-- One percentage offset of the triangular fallback:
`dist_config.get('fallback', {}).get(key, default)`. -/
def fallbackPct (dist_config : Val) (key : String) (dflt : ℚ) : ℚ :=
  (dictGet (dictGet dist_config "fallback" (Val.dict [])) key (Val.num dflt)).toRat

/-- `_get_fallback_params`: heuristic parameters used when a variable has
no historical series, anchored on the configured current value. -/
def get_fallback_params (cfg : Val) (vname : String) (dist_config : Val) :
    Except String (List (String × ℚ)) :=
  let current_value := fallbackCurrentValue cfg vname
  let distType := (dictGet dist_config "type" Val.null).toStr
  if distType = "normal" then
    Except.ok [("mean", (dictGet (dictGet dist_config "fallback" (Val.dict [])) "mean" (Val.num current_value)).toRat),
               ("std", (dictGet (dictGet dist_config "fallback" (Val.dict [])) "std" (Val.num (current_value * (1/10)))).toRat)]
  else if distType = "triangular" then
    Except.ok [("min", current_value * (1 + fallbackPct dist_config "min_pct" (-(1/10)))),
               ("mode", current_value * (1 + fallbackPct dist_config "mode_pct" 0)),
               ("max", current_value * (1 + fallbackPct dist_config "max_pct" (15/100)))]
  else
    Except.error (String.append "No hay fallback para distribución: " distType)

/-! ## Trigger evaluation (`UniversalMonteCarloEngine.evaluate_triggers`) -/

/-- The statistics `evaluate_triggers` reads after its key-presence
validation: exactly the required keys `prob_loss`, `mean`, `std`, `p10`. -/
structure StatsIn where
  prob_loss : ℚ
  mean : ℚ
  std : ℚ
  p10 : ℚ

/-- One emitted alert; the human-readable message and the timestamp are
presentation strings and are not modelled. -/
structure Alert where
  nivel : String
  metrica : String
  valor_actual : ℚ
  umbral_permitido : ℚ

/-- The three thresholds as `evaluate_triggers` resolves them:
`config.get('thresholds', {})`, replaced wholesale by the conservative
default set when falsy, then per-key `.get` with a second set of
defaults. Returns (critical_loss_prob, high_volatility,
margin_protection). -/
def resolvedThresholds (cfg : Val) : ℚ × ℚ × ℚ :=
  let thresholds0 := configGet cfg "thresholds" (Val.dict [])
  let thresholds :=
    if thresholds0.truthy then thresholds0
    else Val.dict [("critical_loss_prob", Val.num (20/100)),
                   ("high_volatility", Val.num (30/100)),
                   ("margin_protection", Val.num (5/100))]
  ((dictGet thresholds "critical_loss_prob" (Val.num (25/100))).toRat,
   (dictGet thresholds "high_volatility" (Val.num (35/100))).toRat,
   (dictGet thresholds "margin_protection" (Val.num (5/100))).toRat)

/-- `evaluate_triggers`: the three independent rules, evaluated in
order; each appends at most one alert. -/
def evaluate_triggers (cfg : Val) (stats : StatsIn) : List Alert :=
  let critical_threshold := (resolvedThresholds cfg).1
  let volatility_threshold := (resolvedThresholds cfg).2.1
  let margin_protection := (resolvedThresholds cfg).2.2
  let r1 : List Alert :=
    if stats.prob_loss > critical_threshold then
      [{ nivel := if stats.prob_loss > critical_threshold * (3/2) then "CRÍTICO" else "ALTO",
         metrica := "prob_loss",
         valor_actual := stats.prob_loss,
         umbral_permitido := critical_threshold }]
    else []
  let r2 : List Alert :=
    if stats.mean ≠ 0 then
      if |stats.std / stats.mean| > volatility_threshold then
        [{ nivel := "ALTO",
           metrica := "coef_variacion",
           valor_actual := |stats.std / stats.mean|,
           umbral_permitido := volatility_threshold }]
      else []
    else []
  let r3 : List Alert :=
    if stats.p10 < 0 then
      [{ nivel := "CRÍTICO", metrica := "p10",
         valor_actual := stats.p10, umbral_permitido := 0 }]
    else if stats.mean > 0 then
      if stats.p10 / stats.mean < margin_protection then
        [{ nivel := "MEDIO", metrica := "margin_ratio",
           valor_actual := stats.p10 / stats.mean,
           umbral_permitido := margin_protection }]
      else []
    else []
  r1 ++ (r2 ++ r3)

/-! ## The run loop (`UniversalMonteCarloEngine.run`) and the generator

The pseudo-random generator is numpy's process-global generator, which is
external library code. Modelled from the spec: "If a seed is supplied,
the pseudo-random generator is deterministically seeded once for the
whole run; identical configuration + seed ⇒ bit-identical output. No
seed ⇒ independent draws each call", and omitting the seed makes two
runs "differ with overwhelming probability". The model therefore keeps
an explicit generator state; seeding sets the state to a function of the
seed value alone, every draw is a deterministic function of the state,
the state advances with each draw, and draws from distinct states
differ. The numeric shape a particular distribution gives its draws is
irrelevant to the claims and is not modelled. -/

/-- Modelled from the spec: the state of the process-global generator. -/
structure Rng where
  state : ℚ

/-- Modelled from the spec: `np.random.seed(seed)` puts the generator in
a state that is a function of the seed value alone. -/
def npSeed (v : Val) : Rng := { state := v.toRat }

/-- Modelled from the spec: one call drawing `n` samples for one
variable; a deterministic function of the generator state that advances
the state. -/
def drawSamples (n : Nat) (rng : Rng) : List ℚ × Rng :=
  ((List.range n).map (fun _ => rng.state), { state := rng.state + 1 })

/-- One entry of `self.variables_config`. -/
structure VarCfg where
  name : String
  distribution : String
  params : List (String × ℚ)

/-- The per-variable sampling loop of `run`. -/
def drawAll (vars : List VarCfg) (n : Nat) (rng : Rng) : List (String × List ℚ) × Rng :=
  match vars with
  | [] => ([], rng)
  | v :: rest =>
      let p := drawSamples n rng
      let q := drawAll rest n p.2
      ((v.name, p.1) :: q.1, q.2)

/-- Row `j` of the sample frame: one value per variable. -/
def sampleRow (samples : List (String × List ℚ)) (j : Nat) : List (String × ℚ) :=
  samples.map (fun p => (p.1, p.2.getD j 0))

/-- What `run` packages: the per-variable sample vectors and the outcome
vector (the 0..N−1 index column is the list position). -/
structure RunResult where
  samples : List (String × List ℚ)
  outcomes : List ℚ

/-- `UniversalMonteCarloEngine.run`: read `n_simulations` and `seed`
from the configuration, seed the global generator only when the seed is
truthy, draw every variable's samples, then evaluate the business model
once per row. Returns the result together with the generator state the
run leaves behind. -/
def engineRun (cfg : Val) (vars : List VarCfg)
    (model : List (String × ℚ) → Val → ℚ) (rng : Rng) : RunResult × Rng :=
  let n := Int.toNat (configGet cfg "simulation.n_simulations" (Val.num 10000)).toRat.num
  let seed := configGet cfg "simulation.seed" Val.null
  let rng0 := if seed.truthy then npSeed seed else rng
  let p := drawAll vars n rng0
  let business_params := configGet cfg "business_parameters" Val.null
  let outcomes := (List.range n).map (fun j => model (sampleRow p.1 j) business_params)
  ({ samples := p.1, outcomes := outcomes }, p.2)

/-! ## Concrete inputs used by witnesses and counterexamples -/

/-- The template of the `_merge_configs` docstring example. -/
def exTemplate : List (String × Val) := [("a", Val.num 1), ("b", Val.dict [("c", Val.num 2)])]

/-- The client of the `_merge_configs` docstring example. -/
def exClient : List (String × Val) := [("b", Val.dict [("c", Val.num 3), ("d", Val.num 4)])]

/-- A client override that is present but empty (falsy) for variable `x`,
with no template default. -/
def cfgCustomEmpty : Val :=
  Val.dict [("simulation", Val.dict [("custom_distributions", Val.dict [("x", Val.dict [])])])]

/-- Both a custom and a default distribution spec for variable `x`. -/
def cfgBothDists : Val :=
  Val.dict [("simulation", Val.dict [("custom_distributions",
              Val.dict [("x", Val.dict [("type", Val.str "normal")])])]),
            ("default_distributions", Val.dict [("x", Val.dict [("type", Val.str "triangular")])])]

/-- A thresholds mapping that is present (truthy) but carries no
`critical_loss_prob` key. -/
def cfgThresholdsPartial : Val :=
  Val.dict [("thresholds", Val.dict [("high_volatility", Val.num (35/100))])]

/-- A summary that breaches 0.20 but not 0.25 as critical loss
probability, and nothing else. -/
def statsBorderline : StatsIn := { prob_loss := 22/100, mean := 1, std := 0, p10 := 1 }

/-- Scenario B of the spec: threshold 0.25 configured. -/
def cfgScenarioB : Val :=
  Val.dict [("thresholds", Val.dict [("critical_loss_prob", Val.num (25/100))])]

/-- Scenario B of the spec: `prob_loss = 0.40`. -/
def statsScenarioB : StatsIn := { prob_loss := 40/100, mean := 1, std := 0, p10 := 1 }

/-- A configuration whose `simulation.seed` is present and equal to 0. -/
def cfgSeedZero : Val :=
  Val.dict [("simulation", Val.dict [("seed", Val.num 0), ("n_simulations", Val.num 1)])]

/-- The same configuration with the seed entry absent. -/
def cfgSeedless : Val :=
  Val.dict [("simulation", Val.dict [("n_simulations", Val.num 1)])]

/-- A configuration with a non-zero seed. -/
def cfgSeeded : Val :=
  Val.dict [("simulation", Val.dict [("seed", Val.num 42), ("n_simulations", Val.num 1)])]

/-- One configured variable. -/
def varsOne : List VarCfg := [{ name := "x", distribution := "uniform", params := [] }]

/-- A configured current price that is negative. -/
def cfgNegPrice : Val := Val.dict [("current_prices", Val.dict [("x", Val.num (-100))])]

/-- A business model reading off the first sampled variable. -/
def modelHead : List (String × ℚ) → Val → ℚ := fun row _ => (row.headD ("", 0)).2

/-! ## Lemmas on the dictionary primitives -/

theorem lookupKey_setKey_self (t : List (String × Val)) (k : String) (v : Val) :
    lookupKey (setKey t k v) k = some v := by
  induction t with
  | nil => simp [setKey, lookupKey]
  | cons hd tl ih =>
      obtain ⟨k1, v1⟩ := hd
      by_cases h : k1 = k
      · simp [setKey, h, lookupKey]
      · simp [setKey, h, lookupKey, ih]

theorem lookupKey_setKey_ne (t : List (String × Val)) (k0 k : String) (v : Val)
    (h : ¬ k0 = k) : lookupKey (setKey t k0 v) k = lookupKey t k := by
  induction t with
  | nil => simp [setKey, lookupKey, h]
  | cons hd tl ih =>
      obtain ⟨k1, v1⟩ := hd
      by_cases h1 : k1 = k0
      · subst h1; simp [setKey, lookupKey, h]
      · simp [setKey, h1, lookupKey, ih]

theorem mem_keys_of_lookupKey {t : List (String × Val)} {k : String} {v : Val}
    (h : lookupKey t k = some v) : k ∈ t.map Prod.fst := by
  induction t with
  | nil => simp [lookupKey] at h
  | cons hd tl ih =>
      obtain ⟨k1, v1⟩ := hd
      by_cases h1 : k1 = k
      · subst h1; simp
      · simp only [lookupKey, h1, if_false] at h
        simp [ih h]

theorem lookupKey_eq_none_of_not_mem {t : List (String × Val)} {k : String}
    (h : k ∉ t.map Prod.fst) : lookupKey t k = Option.none := by
  induction t with
  | nil => rfl
  | cons hd tl ih =>
      obtain ⟨k1, v1⟩ := hd
      simp only [List.map_cons, List.mem_cons] at h
      push_neg at h
      simp [lookupKey, Ne.symm h.1, ih h.2]

theorem mergeOverride_congr {t1 t2 : List (String × Val)} (k : String) (v : Val)
    (h : lookupKey t1 k = lookupKey t2 k) : mergeOverride t1 k v = mergeOverride t2 k v := by
  unfold mergeOverride
  rw [h]

theorem lookupKey_mergeConfigs_none (T C : List (String × Val)) (k : String)
    (h : lookupKey C k = Option.none) :
    lookupKey (mergeConfigs T C) k = lookupKey T k := by
  induction C generalizing T with
  | nil => simp [mergeConfigs]
  | cons hd rest ih =>
      obtain ⟨k0, v0⟩ := hd
      by_cases hk : k0 = k
      · exfalso; simp [lookupKey, hk] at h
      · simp only [lookupKey, hk, if_false] at h
        simp only [mergeConfigs]
        rw [ih _ h, lookupKey_setKey_ne _ _ _ _ hk]

theorem lookupKey_mergeConfigs_some (T C : List (String × Val)) (k : String) (cv : Val)
    (hC : (C.map Prod.fst).Nodup) (h : lookupKey C k = some cv) :
    lookupKey (mergeConfigs T C) k = some (mergeOverride T k cv) := by
  induction C generalizing T with
  | nil => simp [lookupKey] at h
  | cons hd rest ih =>
      obtain ⟨k0, v0⟩ := hd
      simp only [List.map_cons, List.nodup_cons] at hC
      obtain ⟨hk0, hrest⟩ := hC
      simp only [mergeConfigs]
      by_cases hk : k0 = k
      · subst hk
        simp only [lookupKey, if_pos rfl] at h
        obtain rfl : v0 = cv := by injection h
        have hnone : lookupKey rest k0 = Option.none := lookupKey_eq_none_of_not_mem hk0
        rw [lookupKey_mergeConfigs_none _ _ _ hnone, lookupKey_setKey_self]
      · simp only [lookupKey, hk, if_false] at h
        rw [ih _ hrest h, mergeOverride_congr k cv (lookupKey_setKey_ne T k0 k _ hk)]

theorem mergeOverride_not_both {T : List (String × Val)} {k : String} {cv : Val}
    (hnot : ∀ td cd, lookupKey T k = some (Val.dict td) → cv ≠ Val.dict cd) :
    mergeOverride T k cv = cv := by
  unfold mergeOverride
  rcases hT : lookupKey T k with _ | tv
  · cases cv <;> rfl
  · cases tv <;> cases cv <;> first | rfl | exact absurd rfl (hnot _ _ hT)

/-! ## Claims about configuration resolution -/

/-- C3: `_merge_configs` is the recursive right-biased merge: with the
client's keys unique (a Python dict guarantees this), for every key in
the client whose values in both trees are mappings the merge recurses,
any other key present in the client takes the client value entirely
(including a non-mapping replacing a mapping), keys absent from the
client keep their template value, and merging with an empty client
returns the template unchanged. -/
theorem C3_merge_recursive_right_biased (T C : List (String × Val))
    (hC : (C.map Prod.fst).Nodup) :
    mergeConfigs T [] = T ∧
    (∀ k td cd, lookupKey C k = some (Val.dict cd) → lookupKey T k = some (Val.dict td) →
      lookupKey (mergeConfigs T C) k = some (Val.dict (mergeConfigs td cd))) ∧
    (∀ k cv, lookupKey C k = some cv →
      (∀ td cd, lookupKey T k = some (Val.dict td) → cv ≠ Val.dict cd) →
      lookupKey (mergeConfigs T C) k = some cv) ∧
    (∀ k, lookupKey C k = Option.none → lookupKey (mergeConfigs T C) k = lookupKey T k) := by
  refine ⟨by simp [mergeConfigs], ?_, ?_, ?_⟩
  · intro k td cd hc ht
    rw [lookupKey_mergeConfigs_some T C k _ hC hc]
    have : mergeOverride T k (Val.dict cd) = Val.dict (mergeConfigs td cd) := by
      unfold mergeOverride
      rw [ht]
    rw [this]
  · intro k cv hc hnot
    rw [lookupKey_mergeConfigs_some T C k cv hC hc, mergeOverride_not_both hnot]
  · intro k hc
    exact lookupKey_mergeConfigs_none T C k hc

/-- Witness for C3 at the docstring example
`{'a': 1, 'b': {'c': 2}}` merged with `{'b': {'c': 3, 'd': 4}}`. -/
theorem C3_merge_recursive_right_biased_witness :
    lookupKey (mergeConfigs exTemplate exClient) "b" =
      some (Val.dict (mergeConfigs [("c", Val.num 2)] [("c", Val.num 3), ("d", Val.num 4)])) ∧
    lookupKey (mergeConfigs exTemplate exClient) "a" = some (Val.num 1) := by
  have h := C3_merge_recursive_right_biased exTemplate exClient (by simp [exClient])
  refine ⟨h.2.1 "b" [("c", Val.num 2)] [("c", Val.num 3), ("d", Val.num 4)] rfl rfl, ?_⟩
  rw [h.2.2.2 "a" rfl]
  rfl

theorem specLookup_eq_walkPath (v : Val) (ks : List String) :
    specLookup v ks = (walkPath v ks).toOption := by
  induction ks generalizing v with
  | nil => cases v <;> rfl
  | cons k ks ih =>
      cases v <;> try rfl
      rename_i d
      simp only [specLookup, walkPath]
      cases hl : lookupKey d k with
      | none => rfl
      | some w => exact ih w

/-- C7: `ConfigurationManager.get` never raises — for every tree, every
dot-separated path and every default it is total and agrees with the
spec-side walk: the stored value when the whole path resolves through
mappings, the default as soon as a step is missing or a non-mapping is
encountered before the path is exhausted. -/
theorem C7_get_never_raises (cfg : Val) (path : String) (default : Val) :
    configGet cfg path default = Option.getD (specLookup cfg (splitPath path)) default := by
  rw [specLookup_eq_walkPath]
  unfold configGet
  cases walkPath cfg (splitPath path) <;> rfl

/-- C6 (amended): distribution resolution returns the client override at
`simulation.custom_distributions.<name>` when it is present and truthy
(non-empty), otherwise the template default at
`default_distributions.<name>` when that is truthy, and raises exactly
when neither location holds a truthy value. -/
theorem C6_distribution_lookup_order (cfg : Val) (vname : String) :
    (Val.truthy (configGet cfg (String.append "simulation.custom_distributions." vname) Val.null) = true →
      get_distribution_config cfg vname =
        Except.ok (configGet cfg (String.append "simulation.custom_distributions." vname) Val.null)) ∧
    (Val.truthy (configGet cfg (String.append "simulation.custom_distributions." vname) Val.null) = false →
      Val.truthy (configGet cfg (String.append "default_distributions." vname) Val.null) = true →
      get_distribution_config cfg vname =
        Except.ok (configGet cfg (String.append "default_distributions." vname) Val.null)) ∧
    ((∃ e, get_distribution_config cfg vname = Except.error e) ↔
      Val.truthy (configGet cfg (String.append "simulation.custom_distributions." vname) Val.null) = false ∧
      Val.truthy (configGet cfg (String.append "default_distributions." vname) Val.null) = false) := by
  unfold get_distribution_config
  by_cases h1 : Val.truthy (configGet cfg (String.append "simulation.custom_distributions." vname) Val.null) = true
  · simp [h1]
  · rw [Bool.not_eq_true] at h1
    by_cases h2 : Val.truthy (configGet cfg (String.append "default_distributions." vname) Val.null) = true
    · simp [h1, h2]
    · rw [Bool.not_eq_true] at h2
      simp [h1, h2]

/-- Counterexample to C6 as stated: in `cfgCustomEmpty` the client
override for `x` is present (an empty mapping), yet
`get_distribution_config` raises instead of returning it — presence is
not what the code tests, truthiness is. -/
theorem C6_counterexample :
    specLookup cfgCustomEmpty ["simulation", "custom_distributions", "x"] = some (Val.dict []) ∧
    get_distribution_config cfgCustomEmpty "x" =
      Except.error (String.append "No se encontró configuración de distribución para variable: " "x") :=
  ⟨rfl, rfl⟩

/-- Witness for C6: with both a truthy custom and a truthy default spec
for `x`, the custom one wins. -/
theorem C6_distribution_lookup_order_witness :
    get_distribution_config cfgBothDists "x" = Except.ok (Val.dict [("type", Val.str "normal")]) :=
  ((C6_distribution_lookup_order cfgBothDists "x").1 rfl).trans rfl

/-! ## Claims about trigger evaluation -/

/-- C1: for every configuration and every summary carrying the required
keys, `evaluate_triggers` emits a loss-risk alert (metric `prob_loss`)
iff `prob_loss` exceeds the resolved critical threshold, and any such
alert is CRÍTICO exactly when `prob_loss > 1.5 ×` the threshold and ALTO
otherwise. -/
theorem C1_loss_rule (cfg : Val) (stats : StatsIn) :
    ((∃ a ∈ evaluate_triggers cfg stats, a.metrica = "prob_loss") ↔
      stats.prob_loss > (resolvedThresholds cfg).1) ∧
    (∀ a ∈ evaluate_triggers cfg stats, a.metrica = "prob_loss" →
      ((a.nivel = "CRÍTICO" ↔ stats.prob_loss > (resolvedThresholds cfg).1 * (3/2)) ∧
       (a.nivel = "ALTO" ↔ ¬ stats.prob_loss > (resolvedThresholds cfg).1 * (3/2)))) := by
  simp only [evaluate_triggers]
  split_ifs <;> simp_all

/-- Witness for C1, Scenario B of the spec: threshold 0.25,
`prob_loss = 0.40 > 0.375`, so a CRÍTICO loss-risk alert is emitted. -/
theorem C1_loss_rule_witness :
    ∃ a ∈ evaluate_triggers cfgScenarioB statsScenarioB,
      a.metrica = "prob_loss" ∧ a.nivel = "CRÍTICO" := by
  have h := C1_loss_rule cfgScenarioB statsScenarioB
  have hcrit : (resolvedThresholds cfgScenarioB).1 = 25/100 := rfl
  have hfire : statsScenarioB.prob_loss > (resolvedThresholds cfgScenarioB).1 := by
    rw [hcrit]; norm_num [statsScenarioB]
  obtain ⟨a, ha, hm⟩ := h.1.mpr hfire
  refine ⟨a, ha, hm, (h.2 a ha hm).1.mpr ?_⟩
  rw [hcrit]; norm_num [statsScenarioB]

/-- C9 (amended): the effective defaults for the trigger thresholds come
in two distinct sets. When the whole `thresholds` mapping is absent or
falsy the conservative set (0.20, 0.30, 0.05) applies; when the mapping
is present and truthy but an individual key is missing, the per-rule
defaults 0.25 / 0.35 / 0.05 apply. Only `margin_protection` has one
default value independent of which way it is absent. -/
theorem C9_threshold_two_default_sets :
    (∀ cfg, Val.truthy (configGet cfg "thresholds" (Val.dict [])) = false →
      resolvedThresholds cfg = (20/100, 30/100, 5/100)) ∧
    (∀ cfg d, configGet cfg "thresholds" (Val.dict []) = Val.dict d →
      Val.truthy (Val.dict d) = true →
      (lookupKey d "critical_loss_prob" = Option.none → (resolvedThresholds cfg).1 = 25/100) ∧
      (lookupKey d "high_volatility" = Option.none → (resolvedThresholds cfg).2.1 = 35/100) ∧
      (lookupKey d "margin_protection" = Option.none → (resolvedThresholds cfg).2.2 = 5/100)) := by
  constructor
  · intro cfg h
    simp [resolvedThresholds, h, dictGet, lookupKey, Val.toRat]
  · intro cfg d hcfg htr
    refine ⟨?_, ?_, ?_⟩ <;> intro hl <;>
      simp [resolvedThresholds, hcfg, htr, dictGet, hl, Val.toRat]

/-- Counterexample to C9 as stated: with `critical_loss_prob` absent in
both configurations, the effective default is 0.20 when the whole
mapping is missing but 0.25 when only the key is missing, and the same
summary (`prob_loss = 0.22`) triggers an alert in one case and none in
the other. -/
theorem C9_counterexample :
    lookupKey [("high_volatility", Val.num (35/100))] "critical_loss_prob" = Option.none ∧
    (resolvedThresholds (Val.dict [])).1 = 20/100 ∧
    (resolvedThresholds cfgThresholdsPartial).1 = 25/100 ∧
    (20/100 : ℚ) ≠ 25/100 ∧
    evaluate_triggers (Val.dict []) statsBorderline ≠ [] ∧
    evaluate_triggers cfgThresholdsPartial statsBorderline = [] := by
  have ht1 : resolvedThresholds (Val.dict []) = (20/100, 30/100, 5/100) := rfl
  have ht2 : resolvedThresholds cfgThresholdsPartial = (25/100, 35/100, 5/100) := rfl
  refine ⟨rfl, rfl, rfl, by norm_num, ?_, ?_⟩
  · simp only [evaluate_triggers, ht1, statsBorderline]
    norm_num
  · simp only [evaluate_triggers, ht2, statsBorderline]
    norm_num

/-- Witness for C9: the two absence modes resolve `critical_loss_prob`
to the two different defaults. -/
theorem C9_threshold_two_default_sets_witness :
    resolvedThresholds (Val.dict []) = (20/100, 30/100, 5/100) ∧
    (resolvedThresholds cfgThresholdsPartial).1 = 25/100 :=
  ⟨C9_threshold_two_default_sets.1 (Val.dict []) rfl,
   ((C9_threshold_two_default_sets.2 cfgThresholdsPartial
      [("high_volatility", Val.num (35/100))] rfl rfl).1 rfl)⟩

/-! ## Claims about run determinism and seeding -/

/-- C2 (amended): when the configured `simulation.seed` is truthy
(non-zero), `run` seeds the generator from the configuration alone, so
two invocations under the same resolved configuration produce identical
per-variable sample vectors and outcome vectors regardless of the
generator state each invocation starts from. -/
theorem C2_seeded_determinism (cfg : Val) (vars : List VarCfg)
    (model : List (String × ℚ) → Val → ℚ) (rng1 rng2 : Rng)
    (h : Val.truthy (configGet cfg "simulation.seed" Val.null) = true) :
    (engineRun cfg vars model rng1).1 = (engineRun cfg vars model rng2).1 := by
  simp only [engineRun, h, if_true]

/-- Witness for C2: seed 42 configured; runs started from two different
generator states return the same result. -/
theorem C2_seeded_determinism_witness :
    (engineRun cfgSeeded varsOne modelHead { state := 0 }).1 =
      (engineRun cfgSeeded varsOne modelHead { state := 99 }).1 :=
  C2_seeded_determinism cfgSeeded varsOne modelHead { state := 0 } { state := 99 } rfl

/-- Counterexample to C2 as stated: `cfgSeedZero` supplies the seed 0,
but `if seed:` treats it as falsy, the generator is never seeded, and
two successive invocations (the second starting from the generator
state the first left behind) give different outcome vectors. -/
theorem C2_counterexample :
    specLookup cfgSeedZero ["simulation", "seed"] = some (Val.num 0) ∧
    (engineRun cfgSeedZero varsOne modelHead { state := 0 }).1.outcomes ≠
      (engineRun cfgSeedZero varsOne modelHead
        (engineRun cfgSeedZero varsOne modelHead { state := 0 }).2).1.outcomes := by
  refine ⟨rfl, ?_⟩
  intro hcontra
  have k1 : ((engineRun cfgSeedZero varsOne modelHead { state := 0 }).1.outcomes.headD 7) = 0 := rfl
  have k2 : ((engineRun cfgSeedZero varsOne modelHead
      (engineRun cfgSeedZero varsOne modelHead { state := 0 }).2).1.outcomes.headD 7) = 0 + 1 := rfl
  rw [hcontra, k2] at k1
  norm_num at k1

/-- C10: a falsy configured seed (0, like None) leaves the generator
untouched: `run` behaves exactly as under a configuration with no seed
entry, for every ambient generator state. -/
theorem C10_falsy_seed_not_seeded (cfg1 cfg2 : Val) (vars : List VarCfg)
    (model : List (String × ℚ) → Val → ℚ) (rng : Rng)
    (h1 : Val.truthy (configGet cfg1 "simulation.seed" Val.null) = false)
    (h2 : Val.truthy (configGet cfg2 "simulation.seed" Val.null) = false)
    (hn : configGet cfg1 "simulation.n_simulations" (Val.num 10000) =
          configGet cfg2 "simulation.n_simulations" (Val.num 10000))
    (hb : configGet cfg1 "business_parameters" Val.null =
          configGet cfg2 "business_parameters" Val.null) :
    engineRun cfg1 vars model rng = engineRun cfg2 vars model rng := by
  simp only [engineRun, h1, h2, hn, hb, Bool.false_eq_true, if_false]

/-- Witness for C10: seed 0 configured versus seed entry absent — same
run output and same final generator state. -/
theorem C10_falsy_seed_not_seeded_witness :
    engineRun cfgSeedZero varsOne modelHead { state := 5 } =
      engineRun cfgSeedless varsOne modelHead { state := 5 } :=
  C10_falsy_seed_not_seeded cfgSeedZero cfgSeedless varsOne modelHead { state := 5 } rfl rfl rfl rfl

/-! ## Lemmas on sorting, folding and interpolation quantiles -/

theorem sortQ_sorted (xs : List ℚ) : List.Sorted (· ≤ ·) (sortQ xs) :=
  List.sorted_insertionSort _ xs

theorem sortQ_perm (xs : List ℚ) : (sortQ xs).Perm xs :=
  List.perm_insertionSort _ xs

theorem sortQ_ne_nil {xs : List ℚ} (h : xs ≠ []) : sortQ xs ≠ [] := by
  intro hc
  have hl := (sortQ_perm xs).length_eq
  rw [hc] at hl
  exact h (List.length_eq_zero.mp hl.symm)

theorem sorted_getD_mono {s : List ℚ} (hs : List.Sorted (· ≤ ·) s) {i j : ℕ}
    (hij : i ≤ j) (hj : j < s.length) : s.getD i 0 ≤ s.getD j 0 := by
  have hi : i < s.length := lt_of_le_of_lt hij hj
  rw [List.getD_eq_getElem _ _ hi, List.getD_eq_getElem _ _ hj]
  have := hs.rel_get_of_le (a := ⟨i, hi⟩) (b := ⟨j, hj⟩) hij
  simpa using this

theorem getD_mem {s : List ℚ} {i : ℕ} (h : i < s.length) : s.getD i 0 ∈ s := by
  rw [List.getD_eq_getElem _ _ h]
  exact List.getElem_mem h

theorem cast_toNat_floor {h : ℚ} (h0 : 0 ≤ h) : ((Int.toNat ⌊h⌋ : ℕ) : ℚ) = (⌊h⌋ : ℚ) := by
  have hf : 0 ≤ ⌊h⌋ := Int.floor_nonneg.mpr h0
  exact_mod_cast Int.toNat_of_nonneg hf

theorem toNat_floor_cast_le {h : ℚ} (h0 : 0 ≤ h) : ((Int.toNat ⌊h⌋ : ℕ) : ℚ) ≤ h := by
  rw [cast_toNat_floor h0]
  exact Int.floor_le h

theorem lt_toNat_floor_add_one {h : ℚ} (h0 : 0 ≤ h) : h < ((Int.toNat ⌊h⌋ : ℕ) : ℚ) + 1 := by
  rw [cast_toNat_floor h0]
  exact Int.lt_floor_add_one h

theorem toNat_floor_le_of_le {h : ℚ} {n : ℕ} (hn : 1 ≤ n) (hub : h ≤ (n : ℚ) - 1) :
    Int.toNat ⌊h⌋ ≤ n - 1 := by
  have hcast : ((n : ℚ) - 1) = (((n : ℤ) - 1 : ℤ) : ℚ) := by push_cast; ring
  have h1 : ⌊h⌋ ≤ (n : ℤ) - 1 := by
    calc ⌊h⌋ ≤ ⌊(n : ℚ) - 1⌋ := Int.floor_le_floor hub
    _ = (n : ℤ) - 1 := by rw [hcast, Int.floor_intCast]
  omega

theorem interpAt_lower {s : List ℚ} (hs : List.Sorted (· ≤ ·) s) {h : ℚ}
    (h0 : 0 ≤ h) : s.getD (Int.toNat ⌊h⌋) 0 ≤ interpAt s h := by
  unfold interpAt
  cases hnx : s[(Int.toNat ⌊h⌋) + 1]? with
  | none => exact le_refl _
  | some nxt =>
      have hlt : Int.toNat ⌊h⌋ + 1 < s.length := by
        by_contra hc
        rw [List.getElem?_eq_none (by omega)] at hnx
        exact Option.noConfusion hnx
      have hval : nxt = s.getD (Int.toNat ⌊h⌋ + 1) 0 := by
        rw [List.getElem?_eq_getElem hlt] at hnx
        rw [List.getD_eq_getElem _ _ hlt]
        exact (Option.some.injEq _ _ ▸ hnx).symm
      have hadj : s.getD (Int.toNat ⌊h⌋) 0 ≤ s.getD (Int.toNat ⌊h⌋ + 1) 0 :=
        sorted_getD_mono hs (Nat.le_succ _) hlt
      have hg : 0 ≤ h - ((Int.toNat ⌊h⌋ : ℕ) : ℚ) := by
        have := toNat_floor_cast_le h0; linarith
      dsimp only
      nlinarith [mul_nonneg hg (sub_nonneg.mpr (hval ▸ hadj))]

theorem interpAt_le_next {s : List ℚ} (hs : List.Sorted (· ≤ ·) s) {h : ℚ}
    (h0 : 0 ≤ h) (hlt : Int.toNat ⌊h⌋ + 1 < s.length) :
    interpAt s h ≤ s.getD (Int.toNat ⌊h⌋ + 1) 0 := by
  unfold interpAt
  rw [List.getElem?_eq_getElem hlt, ← List.getD_eq_getElem s 0 hlt]
  have hadj : s.getD (Int.toNat ⌊h⌋) 0 ≤ s.getD (Int.toNat ⌊h⌋ + 1) 0 :=
    sorted_getD_mono hs (Nat.le_succ _) hlt
  have hg1 : h - ((Int.toNat ⌊h⌋ : ℕ) : ℚ) < 1 := by
    have := lt_toNat_floor_add_one h0; linarith
  have hg0 : 0 ≤ h - ((Int.toNat ⌊h⌋ : ℕ) : ℚ) := by
    have := toNat_floor_cast_le h0; linarith
  dsimp only
  nlinarith [mul_nonneg (by linarith : (0:ℚ) ≤ 1 - (h - ((Int.toNat ⌊h⌋ : ℕ) : ℚ))) (sub_nonneg.mpr hadj)]

theorem interpAt_le_last {s : List ℚ} (hs : List.Sorted (· ≤ ·) s) (hne : s ≠ [])
    {h : ℚ} (h0 : 0 ≤ h) (hub : h ≤ (s.length : ℚ) - 1) :
    interpAt s h ≤ s.getD (s.length - 1) 0 := by
  have hn1 : 1 ≤ s.length := List.length_pos.mpr hne
  have hi : Int.toNat ⌊h⌋ ≤ s.length - 1 := toNat_floor_le_of_le hn1 hub
  by_cases hnext : Int.toNat ⌊h⌋ + 1 < s.length
  · calc interpAt s h ≤ s.getD (Int.toNat ⌊h⌋ + 1) 0 := interpAt_le_next hs h0 hnext
    _ ≤ s.getD (s.length - 1) 0 := sorted_getD_mono hs (by omega) (by omega)
  · unfold interpAt
    rw [List.getElem?_eq_none (by omega)]
    exact sorted_getD_mono hs (by omega) (by omega)

theorem first_le_interpAt {s : List ℚ} (hs : List.Sorted (· ≤ ·) s) (hne : s ≠ [])
    {h : ℚ} (h0 : 0 ≤ h) (hub : h ≤ (s.length : ℚ) - 1) :
    s.getD 0 0 ≤ interpAt s h := by
  have hn1 : 1 ≤ s.length := List.length_pos.mpr hne
  have hi : Int.toNat ⌊h⌋ ≤ s.length - 1 := toNat_floor_le_of_le hn1 hub
  calc s.getD 0 0 ≤ s.getD (Int.toNat ⌊h⌋) 0 := sorted_getD_mono hs (Nat.zero_le _) (by omega)
  _ ≤ interpAt s h := interpAt_lower hs h0

theorem interpAt_mono {s : List ℚ} (hs : List.Sorted (· ≤ ·) s) (hne : s ≠ [])
    {h h' : ℚ} (h0 : 0 ≤ h) (hhh : h ≤ h') (hub : h' ≤ (s.length : ℚ) - 1) :
    interpAt s h ≤ interpAt s h' := by
  have hn1 : 1 ≤ s.length := List.length_pos.mpr hne
  have h0' : 0 ≤ h' := le_trans h0 hhh
  have hii : Int.toNat ⌊h⌋ ≤ Int.toNat ⌊h'⌋ :=
    Int.toNat_le_toNat (Int.floor_le_floor hhh)
  have hi' : Int.toNat ⌊h'⌋ ≤ s.length - 1 := toNat_floor_le_of_le hn1 hub
  rcases Nat.lt_or_ge (Int.toNat ⌊h⌋) (Int.toNat ⌊h'⌋) with hcase | hcase
  · have hnext : Int.toNat ⌊h⌋ + 1 < s.length := by omega
    calc interpAt s h ≤ s.getD (Int.toNat ⌊h⌋ + 1) 0 := interpAt_le_next hs h0 hnext
    _ ≤ s.getD (Int.toNat ⌊h'⌋) 0 := sorted_getD_mono hs (by omega) (by omega)
    _ ≤ interpAt s h' := interpAt_lower hs h0'
  · have heq : Int.toNat ⌊h'⌋ = Int.toNat ⌊h⌋ := le_antisymm hcase hii
    unfold interpAt
    rw [heq]
    cases hnx : s[(Int.toNat ⌊h⌋) + 1]? with
    | none => exact le_refl _
    | some nxt =>
        have hlt : Int.toNat ⌊h⌋ + 1 < s.length := by
          by_contra hc
          rw [List.getElem?_eq_none (by omega)] at hnx
          exact Option.noConfusion hnx
        have hval : nxt = s.getD (Int.toNat ⌊h⌋ + 1) 0 := by
          rw [List.getElem?_eq_getElem hlt] at hnx
          rw [List.getD_eq_getElem _ _ hlt]
          exact (Option.some.injEq _ _ ▸ hnx).symm
        have hadj : s.getD (Int.toNat ⌊h⌋) 0 ≤ s.getD (Int.toNat ⌊h⌋ + 1) 0 :=
          sorted_getD_mono hs (Nat.le_succ _) hlt
        have hgg : h - ((Int.toNat ⌊h⌋ : ℕ) : ℚ) ≤ h' - ((Int.toNat ⌊h⌋ : ℕ) : ℚ) := by linarith
        dsimp only
        nlinarith [mul_nonneg (sub_nonneg.mpr hgg) (sub_nonneg.mpr (hval ▸ hadj))]

theorem foldl_min_le_init (l : List ℚ) (a : ℚ) : l.foldl min a ≤ a := by
  induction l generalizing a with
  | nil => exact le_refl a
  | cons b t ih =>
      calc t.foldl min (min a b) ≤ min a b := ih _
      _ ≤ a := min_le_left _ _

theorem foldl_min_le_mem (l : List ℚ) (a x : ℚ) (hx : x ∈ l) : l.foldl min a ≤ x := by
  induction l generalizing a with
  | nil => cases hx
  | cons b t ih =>
      rcases List.mem_cons.mp hx with rfl | hx2
      · calc t.foldl min (min a x) ≤ min a x := foldl_min_le_init t _
        _ ≤ x := min_le_right _ _
      · exact ih _ hx2

theorem foldl_min_mem (l : List ℚ) (a : ℚ) : l.foldl min a = a ∨ l.foldl min a ∈ l := by
  induction l generalizing a with
  | nil => exact Or.inl rfl
  | cons b t ih =>
      rcases ih (min a b) with h | h
      · rcases min_choice a b with hab | hab
        · exact Or.inl (by rw [List.foldl_cons, h, hab])
        · exact Or.inr (by rw [List.foldl_cons, h, hab]; exact List.mem_cons_self _ _)
      · exact Or.inr (List.mem_cons_of_mem _ h)

theorem init_le_foldl_max (l : List ℚ) (a : ℚ) : a ≤ l.foldl max a := by
  induction l generalizing a with
  | nil => exact le_refl a
  | cons b t ih =>
      calc a ≤ max a b := le_max_left _ _
      _ ≤ t.foldl max (max a b) := ih _

theorem mem_le_foldl_max (l : List ℚ) (a x : ℚ) (hx : x ∈ l) : x ≤ l.foldl max a := by
  induction l generalizing a with
  | nil => cases hx
  | cons b t ih =>
      rcases List.mem_cons.mp hx with rfl | hx2
      · calc x ≤ max a x := le_max_right _ _
        _ ≤ t.foldl max (max a x) := init_le_foldl_max t _
      · exact ih _ hx2

theorem stat_min_mem {xs : List ℚ} (h : xs ≠ []) : stat_min xs ∈ xs := by
  cases xs with
  | nil => exact absurd rfl h
  | cons x r =>
      rcases foldl_min_mem r x with h1 | h1
      · rw [stat_min, h1]; exact List.mem_cons_self _ _
      · exact List.mem_cons_of_mem _ h1

theorem stat_min_le {xs : List ℚ} {y : ℚ} (hy : y ∈ xs) : stat_min xs ≤ y := by
  cases xs with
  | nil => cases hy
  | cons x r =>
      rcases List.mem_cons.mp hy with rfl | hy2
      · exact foldl_min_le_init r y
      · exact foldl_min_le_mem r x y hy2

theorem le_stat_max {xs : List ℚ} {y : ℚ} (hy : y ∈ xs) : y ≤ stat_max xs := by
  cases xs with
  | nil => cases hy
  | cons x r =>
      rcases List.mem_cons.mp hy with rfl | hy2
      · exact init_le_foldl_max r y
      · exact mem_le_foldl_max r x y hy2

theorem quantile_pos_len {xs : List ℚ} (hne : xs ≠ []) :
    1 ≤ (sortQ xs).length := List.length_pos.mpr (sortQ_ne_nil hne)

theorem quantile_len_sub_one_nonneg {xs : List ℚ} (hne : xs ≠ []) :
    (0 : ℚ) ≤ ((sortQ xs).length : ℚ) - 1 := by
  have h1 := quantile_pos_len hne
  have : (1 : ℚ) ≤ ((sortQ xs).length : ℚ) := by exact_mod_cast h1
  linarith

theorem pdQuantile_mono (xs : List ℚ) (hne : xs ≠ []) {q q' : ℚ}
    (h0 : 0 ≤ q) (hqq : q ≤ q') (h1 : q' ≤ 1) :
    pdQuantile xs q ≤ pdQuantile xs q' := by
  have hc := quantile_len_sub_one_nonneg hne
  unfold pdQuantile
  apply interpAt_mono (sortQ_sorted xs) (sortQ_ne_nil hne)
  · exact mul_nonneg h0 hc
  · exact mul_le_mul_of_nonneg_right hqq hc
  · calc q' * (((sortQ xs).length : ℚ) - 1) ≤ 1 * (((sortQ xs).length : ℚ) - 1) :=
        mul_le_mul_of_nonneg_right h1 hc
    _ = ((sortQ xs).length : ℚ) - 1 := one_mul _

theorem stat_min_le_pdQuantile (xs : List ℚ) (hne : xs ≠ []) {q : ℚ}
    (h0 : 0 ≤ q) (h1 : q ≤ 1) : stat_min xs ≤ pdQuantile xs q := by
  have hc := quantile_len_sub_one_nonneg hne
  have hlen := quantile_pos_len hne
  have hfirst : (sortQ xs).getD 0 0 ∈ xs :=
    ((sortQ_perm xs).mem_iff).mp (getD_mem (by omega))
  calc stat_min xs ≤ (sortQ xs).getD 0 0 := stat_min_le hfirst
  _ ≤ pdQuantile xs q := by
      unfold pdQuantile
      apply first_le_interpAt (sortQ_sorted xs) (sortQ_ne_nil hne) (mul_nonneg h0 hc)
      calc q * (((sortQ xs).length : ℚ) - 1) ≤ 1 * (((sortQ xs).length : ℚ) - 1) :=
          mul_le_mul_of_nonneg_right h1 hc
      _ = ((sortQ xs).length : ℚ) - 1 := one_mul _

theorem pdQuantile_le_stat_max (xs : List ℚ) (hne : xs ≠ []) {q : ℚ}
    (h0 : 0 ≤ q) (h1 : q ≤ 1) : pdQuantile xs q ≤ stat_max xs := by
  have hc := quantile_len_sub_one_nonneg hne
  have hlen := quantile_pos_len hne
  have hlast : (sortQ xs).getD ((sortQ xs).length - 1) 0 ∈ xs :=
    ((sortQ_perm xs).mem_iff).mp (getD_mem (by omega))
  have hstep : pdQuantile xs q ≤ (sortQ xs).getD ((sortQ xs).length - 1) 0 := by
    unfold pdQuantile
    apply interpAt_le_last (sortQ_sorted xs) (sortQ_ne_nil hne) (mul_nonneg h0 hc)
    calc q * (((sortQ xs).length : ℚ) - 1) ≤ 1 * (((sortQ xs).length : ℚ) - 1) :=
        mul_le_mul_of_nonneg_right h1 hc
    _ = ((sortQ xs).length : ℚ) - 1 := one_mul _
  exact le_trans hstep (le_stat_max hlast)

/-! ## Claims about the statistical summary -/

/-- C4: for every non-empty outcome vector (any completed run) the
summary satisfies min ≤ p10 ≤ p25 ≤ p50 ≤ p75 ≤ p90 ≤ p95 ≤ p99 ≤ max. -/
theorem C4_percentiles_monotone (sqrt : ℚ → ℚ) (outcome : List ℚ) (h : outcome ≠ []) :
    (get_statistics sqrt outcome).min ≤ (get_statistics sqrt outcome).p10 ∧
    (get_statistics sqrt outcome).p10 ≤ (get_statistics sqrt outcome).p25 ∧
    (get_statistics sqrt outcome).p25 ≤ (get_statistics sqrt outcome).p50 ∧
    (get_statistics sqrt outcome).p50 ≤ (get_statistics sqrt outcome).p75 ∧
    (get_statistics sqrt outcome).p75 ≤ (get_statistics sqrt outcome).p90 ∧
    (get_statistics sqrt outcome).p90 ≤ (get_statistics sqrt outcome).p95 ∧
    (get_statistics sqrt outcome).p95 ≤ (get_statistics sqrt outcome).p99 ∧
    (get_statistics sqrt outcome).p99 ≤ (get_statistics sqrt outcome).max := by
  simp only [get_statistics]
  exact ⟨stat_min_le_pdQuantile outcome h (by norm_num) (by norm_num),
    pdQuantile_mono outcome h (by norm_num) (by norm_num) (by norm_num),
    pdQuantile_mono outcome h (by norm_num) (by norm_num) (by norm_num),
    pdQuantile_mono outcome h (by norm_num) (by norm_num) (by norm_num),
    pdQuantile_mono outcome h (by norm_num) (by norm_num) (by norm_num),
    pdQuantile_mono outcome h (by norm_num) (by norm_num) (by norm_num),
    pdQuantile_mono outcome h (by norm_num) (by norm_num) (by norm_num),
    pdQuantile_le_stat_max outcome h (by norm_num) (by norm_num)⟩

/-- Witness for C4 on the outcome vector [3, 1, 2]. -/
theorem C4_percentiles_monotone_witness :
    (get_statistics (fun q => q) [(3:ℚ), 1, 2]).min ≤ (get_statistics (fun q => q) [(3:ℚ), 1, 2]).p10 ∧
    (get_statistics (fun q => q) [(3:ℚ), 1, 2]).p10 ≤ (get_statistics (fun q => q) [(3:ℚ), 1, 2]).p25 ∧
    (get_statistics (fun q => q) [(3:ℚ), 1, 2]).p25 ≤ (get_statistics (fun q => q) [(3:ℚ), 1, 2]).p50 ∧
    (get_statistics (fun q => q) [(3:ℚ), 1, 2]).p50 ≤ (get_statistics (fun q => q) [(3:ℚ), 1, 2]).p75 ∧
    (get_statistics (fun q => q) [(3:ℚ), 1, 2]).p75 ≤ (get_statistics (fun q => q) [(3:ℚ), 1, 2]).p90 ∧
    (get_statistics (fun q => q) [(3:ℚ), 1, 2]).p90 ≤ (get_statistics (fun q => q) [(3:ℚ), 1, 2]).p95 ∧
    (get_statistics (fun q => q) [(3:ℚ), 1, 2]).p95 ≤ (get_statistics (fun q => q) [(3:ℚ), 1, 2]).p99 ∧
    (get_statistics (fun q => q) [(3:ℚ), 1, 2]).p99 ≤ (get_statistics (fun q => q) [(3:ℚ), 1, 2]).max :=
  C4_percentiles_monotone (fun q => q) [(3:ℚ), 1, 2] (by simp)

/-- C5: for every non-empty outcome vector, `cvar_95` is the mean of the
outcomes ≤ `var_95` (the 5th percentile), that tail is non-empty, and
`cvar_95 ≤ var_95`. -/
theorem C5_cvar_tail_expectation (sqrt : ℚ → ℚ) (outcome : List ℚ) (h : outcome ≠ []) :
    (get_statistics sqrt outcome).cvar_95 =
      listMean (outcome.filter (fun x => x ≤ (get_statistics sqrt outcome).var_95)) ∧
    outcome.filter (fun x => x ≤ (get_statistics sqrt outcome).var_95) ≠ [] ∧
    (get_statistics sqrt outcome).cvar_95 ≤ (get_statistics sqrt outcome).var_95 := by
  simp only [get_statistics]
  have hmin : stat_min outcome ∈ outcome := stat_min_mem h
  have hle : stat_min outcome ≤ pdQuantile outcome (5/100) :=
    stat_min_le_pdQuantile outcome h (by norm_num) (by norm_num)
  have htne : outcome.filter (fun x => x ≤ pdQuantile outcome (5/100)) ≠ [] := by
    intro hc
    have hm : stat_min outcome ∈ outcome.filter (fun x => x ≤ pdQuantile outcome (5/100)) :=
      List.mem_filter.mpr ⟨hmin, by simpa using hle⟩
    rw [hc] at hm
    cases hm
  refine ⟨by trivial, htne, ?_⟩
  have hbound : ∀ x ∈ outcome.filter (fun x => x ≤ pdQuantile outcome (5/100)),
      x ≤ pdQuantile outcome (5/100) := by
    intro x hx
    simpa using (List.mem_filter.mp hx).2
  have hlen : 0 < (outcome.filter (fun x => x ≤ pdQuantile outcome (5/100))).length :=
    List.length_pos.mpr htne
  have hsum := List.sum_le_card_nsmul _ _ hbound
  rw [nsmul_eq_mul] at hsum
  unfold listMean
  rw [div_le_iff₀ (by exact_mod_cast hlen)]
  linarith [hsum]

/-- Witness for C5 on the outcome vector [3, 1, 2]. -/
theorem C5_cvar_tail_expectation_witness :
    (get_statistics (fun q => q) [(3:ℚ), 1, 2]).cvar_95 =
      listMean ([(3:ℚ), 1, 2].filter (fun x => x ≤ (get_statistics (fun q => q) [(3:ℚ), 1, 2]).var_95)) ∧
    [(3:ℚ), 1, 2].filter (fun x => x ≤ (get_statistics (fun q => q) [(3:ℚ), 1, 2]).var_95) ≠ [] ∧
    (get_statistics (fun q => q) [(3:ℚ), 1, 2]).cvar_95 ≤ (get_statistics (fun q => q) [(3:ℚ), 1, 2]).var_95 :=
  C5_cvar_tail_expectation (fun q => q) [(3:ℚ), 1, 2] (by simp)

/-! ## Claims about triangular distribution parameters -/

/-- C8 (amended): a triangular VariableSpec resolved from a non-empty
historical series (min, median, max of the observations) always
satisfies min ≤ mode ≤ max; one resolved by the fallback heuristic
satisfies it provided the anchoring current value is non-negative and
the configured percentage offsets are ordered (min_pct ≤ mode_pct ≤
max_pct, as the defaults −10% ≤ 0% ≤ +15% are). -/
theorem C8_triangular_min_mode_max (sqrt : ℚ → ℚ) (values : List ℚ) (hv : values ≠ [])
    (cfg dist_config : Val) (vname : String)
    (hty : (dictGet dist_config "type" Val.null).toStr = "triangular")
    (hcv : 0 ≤ fallbackCurrentValue cfg vname)
    (h1 : fallbackPct dist_config "min_pct" (-(1/10)) ≤ fallbackPct dist_config "mode_pct" 0)
    (h2 : fallbackPct dist_config "mode_pct" 0 ≤ fallbackPct dist_config "max_pct" (15/100)) :
    (calculate_distribution_params sqrt values "triangular" =
        Except.ok [("min", stat_min values), ("mode", stat_median values), ("max", stat_max values)] ∧
      stat_min values ≤ stat_median values ∧ stat_median values ≤ stat_max values) ∧
    (get_fallback_params cfg vname dist_config =
        Except.ok [("min", fallbackCurrentValue cfg vname * (1 + fallbackPct dist_config "min_pct" (-(1/10)))),
                   ("mode", fallbackCurrentValue cfg vname * (1 + fallbackPct dist_config "mode_pct" 0)),
                   ("max", fallbackCurrentValue cfg vname * (1 + fallbackPct dist_config "max_pct" (15/100)))] ∧
      fallbackCurrentValue cfg vname * (1 + fallbackPct dist_config "min_pct" (-(1/10))) ≤
        fallbackCurrentValue cfg vname * (1 + fallbackPct dist_config "mode_pct" 0) ∧
      fallbackCurrentValue cfg vname * (1 + fallbackPct dist_config "mode_pct" 0) ≤
        fallbackCurrentValue cfg vname * (1 + fallbackPct dist_config "max_pct" (15/100))) := by
  refine ⟨⟨?_, ?_, ?_⟩, ⟨?_, ?_, ?_⟩⟩
  case refine_1 =>
    unfold calculate_distribution_params
    rw [if_neg (by decide), if_pos rfl]
  case refine_4 =>
    unfold get_fallback_params
    rw [hty, if_neg (by decide), if_pos rfl]
  · exact stat_min_le_pdQuantile values hv (by norm_num) (by norm_num)
  · exact pdQuantile_le_stat_max values hv (by norm_num) (by norm_num)
  · exact mul_le_mul_of_nonneg_left (by linarith) hcv
  · exact mul_le_mul_of_nonneg_left (by linarith) hcv

/-- Counterexample to C8 as stated: with a configured current price of
−100 and the default offsets, the fallback triangular parameters come
out as min = −90, mode = −100, max = −115, violating min ≤ mode. -/
theorem C8_counterexample :
    get_fallback_params cfgNegPrice "x" (Val.dict [("type", Val.str "triangular")]) =
      Except.ok [("min", (-100 : ℚ) * (1 + -(1/10))), ("mode", (-100 : ℚ) * (1 + 0)),
                 ("max", (-100 : ℚ) * (1 + 15/100))] ∧
    ¬ ((-100 : ℚ) * (1 + -(1/10)) ≤ (-100 : ℚ) * (1 + 0)) := by
  constructor
  · rfl
  · norm_num

/-- Witness for C8 at the historical series [2, 1, 3] and a fallback
with default offsets anchored on the default current value 100. -/
theorem C8_triangular_min_mode_max_witness :
    stat_min [(2:ℚ), 1, 3] ≤ stat_median [(2:ℚ), 1, 3] ∧
    fallbackCurrentValue (Val.dict []) "x" *
        (1 + fallbackPct (Val.dict [("type", Val.str "triangular")]) "min_pct" (-(1/10))) ≤
      fallbackCurrentValue (Val.dict []) "x" *
        (1 + fallbackPct (Val.dict [("type", Val.str "triangular")]) "mode_pct" 0) := by
  have h := C8_triangular_min_mode_max (fun q => q) [(2:ℚ), 1, 3] (by simp)
    (Val.dict []) (Val.dict [("type", Val.str "triangular")]) "x" rfl
    (by rw [show fallbackCurrentValue (Val.dict []) "x" = 100 from rfl]; norm_num)
    (by rw [show fallbackPct (Val.dict [("type", Val.str "triangular")]) "min_pct" (-(1/10)) = -(1/10) from rfl,
            show fallbackPct (Val.dict [("type", Val.str "triangular")]) "mode_pct" 0 = 0 from rfl]; norm_num)
    (by rw [show fallbackPct (Val.dict [("type", Val.str "triangular")]) "mode_pct" 0 = 0 from rfl,
            show fallbackPct (Val.dict [("type", Val.str "triangular")]) "max_pct" (15/100) = 15/100 from rfl]; norm_num)
  exact ⟨h.1.2.1, h.2.2.1⟩
